import Mathlib

/-!
# Verification of the HackRx retrieval-augmented answering pipeline

Shallow embedding of the core services of the repository
(`services/document_processor.py`, `services/vector_service.py`,
`services/llm_service.py`) together with proofs of the behavioural
claims about them.

Python strings are modelled as Lean `String`/`List Char` (the inputs of
interest are ASCII); floating point quantities are modelled as `ℚ` (and
as `ℝ` where a square root is required); Python dictionaries with a fixed
key set are modelled as structures; fallible code returns `Except`.
-/

/-! ## Generic Python-semantics helpers -/

/-- `listAt pat s i`: the pattern `pat` occurs in `s` starting at index `i`. -/
def listAt (pat s : List Char) (i : Nat) : Bool :=
  decide ((s.drop i).take pat.length = pat)

/-- Python `pat in s` for strings: substring containment. -/
def containsSub (s pat : List Char) : Bool :=
  (List.range (s.length + 1)).any (fun i => listAt pat s i)

/-- Python `str.lower()` (ASCII). -/
def pyLower (l : List Char) : List Char := l.map Char.toLower

/-- Python `str.strip()`: drop leading and trailing whitespace. -/
def stripChars (l : List Char) : List Char :=
  ((l.dropWhile Char.isWhitespace).reverse.dropWhile Char.isWhitespace).reverse

/-- `str.strip()` at the `String` level. -/
def pyStrip (s : String) : String := String.mk (stripChars s.data)

/-- Split at every character satisfying `p`, keeping empty pieces
(Python `str.split(sep)` semantics for a one-character separator). -/
def splitKeep (p : Char → Bool) : List Char → List (List Char)
  | [] => [[]]
  | c :: t =>
    match splitKeep p t with
    | [] => [[]]
    | h :: r => if p c then [] :: h :: r else (c :: h) :: r

/-- Python `str.split()` with no argument: split on whitespace runs,
dropping empty pieces. -/
def pySplitWs (l : List Char) : List (List Char) :=
  (splitKeep Char.isWhitespace l).filter (· ≠ [])

/-- Python `text.split('\n')` at the `String` level. -/
def pySplitLines (s : String) : List String :=
  (splitKeep (fun c => c = '\n') s.data).map String.mk

/-- `re.split(r'[...]+', s)`: split on *runs* of delimiter characters. -/
def splitRunsGo (p : Char → Bool) : List Char → List Char → List (List Char)
  | [], cur => [cur.reverse]
  | c :: t, cur =>
    if p c then cur.reverse :: splitRunsGo p (t.dropWhile p) []
    else splitRunsGo p t (c :: cur)
termination_by l _ => l.length
decreasing_by
  · exact Nat.lt_succ_of_le (t.dropWhile_sublist p).length_le
  · exact Nat.lt_succ_self _

/-- `re.split(r'[...]+', s)` from the start of the string. -/
def splitRuns (p : Char → Bool) (l : List Char) : List (List Char) :=
  splitRunsGo p l []

/-- Deduplicate keeping the first occurrence of each element
(Python `dict`/insertion-order set semantics). -/
def firstSeenDedup [DecidableEq α] : List α → List α
  | [] => []
  | a :: t => a :: firstSeenDedup (t.filter (· ≠ a))
termination_by l => l.length
decreasing_by
  exact Nat.lt_succ_of_le (List.length_filter_le _ t)

/-- `len(set(q) ∩ set(c)) / len(set(q))` for word lists `q`, `c`
(the lexical-overlap score used by the vector and LLM services). -/
def pySetScore (qwords cwords : List (List Char)) : ℚ :=
  let q := firstSeenDedup qwords
  ((q.filter (fun w => decide (w ∈ cwords))).length : ℚ) / (q.length : ℚ)

/-- No newline between positions `a` (inclusive) and `b` (exclusive) of `s`:
the region a regex `.*?` gap must cross. -/
def noNewline (s : List Char) (a b : Nat) : Bool :=
  ((s.drop a).take (b - a)).all (fun c => c ≠ '\n')

/-- First index `i < n` for which `f i` is `some`, returning that value. -/
def findFirst? (n : Nat) (f : Nat → Option α) : Option α :=
  (List.range n).findSome? f

/-! ## Document processor: `download_with_retries`
(`services/document_processor.py`, lines 81–97)

The network is modelled as a function from attempt number to an outcome:
either an HTTP response with a status code and a payload size, or a
network-level error.  Only the payload size matters to the code
(`len(content)` is all it inspects), so content is modelled by its size.
-/

/-- Outcome of one `session.get(url)` attempt. -/
inductive Attempt where
  | resp (status : Nat) (size : Nat)
  | netErr
deriving DecidableEq, Repr

/-- The exceptions `download_with_retries` can raise:
`ValueError` for an oversized document, `aiohttp.ClientError` for a
non-200 status, or a network-level exception. -/
inductive DlError where
  | tooLarge (size : Nat)
  | httpStatus (status : Nat)
  | network
deriving DecidableEq, Repr

/-- The observable behaviour of one call to `download_with_retries`:
its return value or raised exception, the number of download attempts
actually made, and the list of backoff delays slept (in seconds). -/
structure DlRun where
  value : Except DlError Nat
  attemptsMade : Nat
  delays : List Nat
deriving Repr

/-- Body of one loop iteration of `download_with_retries`: a 200 response
returns the content unless it exceeds the 100MB limit (`ValueError`);
any other status raises `aiohttp.ClientError`. -/
def attemptOnce : Attempt → Except DlError Nat
  | .resp st sz =>
    if st = 200 then
      if sz > 100 * 1024 * 1024 then .error (.tooLarge sz) else .ok sz
    else .error (.httpStatus st)
  | .netErr => .error .network

/-- The retry loop of `download_with_retries`, with `i` the current value
of `attempt` and the second argument the number of remaining iterations.
On an exception the code re-raises when `attempt == max_retries - 1`
(i.e. no iterations remain) and otherwise sleeps `2 ** attempt` seconds
and retries.  (The fuel-0 base case is unreachable from `max_retries ≥ 1`;
Python would fall off the loop and return `None` there.) -/
def dwrGo (att : Nat → Attempt) : Nat → Nat → DlRun
  | i, 0 => ⟨.error .network, i, []⟩
  | i, fuel + 1 =>
    match attemptOnce (att i) with
    | .ok v => ⟨.ok v, i + 1, []⟩
    | .error e =>
      if fuel = 0 then ⟨.error e, i + 1, []⟩
      else
        let r := dwrGo att (i + 1) fuel
        ⟨r.value, r.attemptsMade, 2 ^ i :: r.delays⟩

/-- `download_with_retries(url, max_retries)` with the network behaviour
abstracted as `att`. -/
def download_with_retries (att : Nat → Attempt) (maxRetries : Nat) : DlRun :=
  dwrGo att 0 maxRetries

/-- A URL whose payload is always one byte over the 100MB limit. -/
def oversizedAtt : Nat → Attempt := fun _ => .resp 200 (100 * 1024 * 1024 + 1)

/-- A URL that yields HTTP 500 on every attempt. -/
def att500 : Nat → Attempt := fun _ => .resp 500 0

/-! ## Document processor: structural sectioning
(`services/document_processor.py`, lines 284–322) -/

/-- Python `str.isupper()` (ASCII): at least one letter, and no lowercase
letter anywhere. -/
def pyIsUpper (l : List Char) : Bool :=
  l.any Char.isAlpha && l.all (fun c => !c.isLower)

/-- `re.match(r'^[0-9]+\.', line)`: one or more leading digits followed
by a literal dot. -/
def matchesNumbered (l : List Char) : Bool :=
  let ds := l.takeWhile Char.isDigit
  !ds.isEmpty && decide ((l.drop ds.length).head? = some '.')

/-- The header-detection heuristic of `analyze_document_structure`:
`len(line) < 100 and (line.isupper() or line.endswith(':') or re.match(r'^[0-9]+\.', line))`. -/
def isHeadingLine (line : String) : Bool :=
  decide (line.length < 100) &&
    (pyIsUpper line.data || decide (line.data.getLast? = some ':') || matchesNumbered line.data)

/-- `determine_header_level`. -/
def determine_header_level (line : String) : Nat :=
  if pyIsUpper line.data then 1
  else if line.data.getLast? = some ':' then 2
  else if matchesNumbered line.data then 3
  else 0

/-- A `Section` dictionary: `{"title": ..., "content": ..., "level": ...}`. -/
structure PySection where
  title : String
  content : String
  level : Nat
deriving DecidableEq, Repr

/-- The line-accumulation loop of `analyze_document_structure`. -/
def analyzeGo : List String → PySection → List PySection → List PySection
  | [], cur, acc => if cur.content ≠ "" then acc ++ [cur] else acc
  | line :: rest, cur, acc =>
    let l := pyStrip line
    if l = "" then analyzeGo rest cur acc
    else if isHeadingLine l then
      let acc' := if cur.content ≠ "" then acc ++ [cur] else acc
      analyzeGo rest ⟨l, "", determine_header_level l⟩ acc'
    else analyzeGo rest ⟨cur.title, cur.content ++ l ++ "\n", cur.level⟩ acc

/-- `analyze_document_structure(text)`. -/
def analyze_document_structure (text : String) : List PySection :=
  analyzeGo (pySplitLines text) ⟨"", "", 0⟩ []

/-- The synthetic input of the sectioning scenario. -/
def sectioningInput : String := "TITLE\nbody text\n\nSECTION TWO:\nmore text\n"

/-! ## Vector service (`services/vector_service.py`)

The service stores chunk dictionaries and a flat L2 FAISS index whose
rows are the chunk embeddings.  Python's built-in string `hash` (used by
`create_simple_embeddings` for the bag-of-words position) is modelled as
an arbitrary function parameter `hash : String → Nat`; all claims hold
for every choice of it.
-/

/-- A chunk dictionary.  `create_intelligent_chunks` produces the first
six keys; `build_comprehensive_index` adds the last four (`none` models
an absent key). -/
structure Chunk where
  text : String
  title : String
  ctype : String
  importance : ℚ
  level : Option Nat
  topic : Option String
  id : Option String
  doc_id : Option String
  index_position : Option Nat
  embedding : Option (List ℝ)

/-- An extracted-document dictionary as consumed by the chunker:
`content['text']` and `content['sections']`. -/
structure Content where
  text : String
  sections : List PySection

/-- First-seen-order deduplication with an explicit `seen` accumulator
(Python dict-key insertion order). -/
def dedupGo [DecidableEq α] (seen : List α) : List α → List α
  | [] => []
  | a :: t => if a ∈ seen then dedupGo seen t else a :: dedupGo (a :: seen) t

/-- `word_freq` of `create_simple_embeddings`: insertion-ordered
(word, frequency) pairs over the words of `text.lower().split()` longer
than 2 characters. -/
def wordFreq (text : String) : List (String × Nat) :=
  let ws := (pySplitWs (pyLower text.data)).filter (fun w => 2 < w.length)
  (dedupGo [] ws).map (fun w => (String.mk w, ws.count w))

/-- The unnormalized 384-dimensional vector of `create_simple_embeddings`:
start from `np.zeros(384)` and assign `vector[hash(word) % 384] = freq`
for each word in insertion order (later words overwrite). -/
def rawVec (hash : String → Nat) (text : String) : List ℝ :=
  (wordFreq text).foldl (fun v wf => v.set (hash wf.1 % 384) (wf.2 : ℝ))
    (List.replicate 384 0)

/-- `np.linalg.norm`: the Euclidean norm of a vector. -/
noncomputable def vecNorm (v : List ℝ) : ℝ :=
  Real.sqrt ((v.map (fun x => x ^ 2)).sum)

/-- One text's embedding in `create_simple_embeddings`: the raw
bag-of-words vector, divided by its norm when the norm is positive. -/
noncomputable def simpleEmbedOne (hash : String → Nat) (text : String) : List ℝ :=
  let v := rawVec hash text
  if 0 < vecNorm v then v.map (fun x => x / vecNorm v) else v

/-- `create_simple_embeddings(texts)` (and `create_local_embeddings`,
which just delegates to it). -/
noncomputable def create_simple_embeddings (hash : String → Nat)
    (texts : List String) : List (List ℝ) :=
  texts.map (simpleEmbedOne hash)

/-- `extract_title_from_chunk`: the first of the first three lines that,
stripped, is non-empty, shorter than 100 characters and does not end in
a dot; else `"Untitled"`. -/
def extract_title_from_chunk (t : String) : String :=
  (((pySplitLines t).take 3).findSome? (fun line =>
    let l := pyStrip line
    if l ≠ "" ∧ l.length < 100 ∧ l.data.getLast? ≠ some '.' then some l else none)).getD
    "Untitled"

/-- `' '.join(words)`. -/
def joinWords (ws : List (List Char)) : String :=
  String.mk (List.intercalate [' '] ws)

/-- `split_long_paragraph`: paragraphs of at most 100 words stay whole;
longer ones are cut into 100-word slices, keeping slices whose stripped
text is longer than 50 characters. -/
def split_long_paragraph (para : String) : List Chunk :=
  let words := pySplitWs para.data
  if words.length ≤ 100 then
    [⟨para, extract_title_from_chunk para, "paragraph", 4/5, none, none, none, none, none, none⟩]
  else
    (List.range ((words.length + 99) / 100)).filterMap (fun j =>
      let chunkText := joinWords ((words.drop (100 * j)).take 100)
      if 50 < (pyStrip chunkText).length then
        some ⟨chunkText, "Paragraph " ++ toString (j + 1), "paragraph_split", 7/10,
          none, none, none, none, none, none⟩
      else none)

/-- The paragraph-accumulation loop of `create_intelligent_chunks`:
append paragraphs (split on blank lines) while the accumulated text
stays within 1000 characters, flushing a `paragraph` chunk otherwise;
a paragraph that alone exceeds the budget is sent to
`split_long_paragraph`. -/
def paraAccum : List String → String → List Chunk → List Chunk
  | [], cur, acc =>
    if pyStrip cur ≠ "" then
      acc ++ [⟨pyStrip cur, extract_title_from_chunk cur, "paragraph", 4/5,
        none, none, none, none, none, none⟩]
    else acc
  | para :: rest, cur, acc =>
    if 1000 < (cur ++ para).length then
      if cur ≠ "" then
        paraAccum rest para (acc ++ [⟨pyStrip cur, extract_title_from_chunk cur, "paragraph",
          4/5, none, none, none, none, none, none⟩])
      else paraAccum rest cur (acc ++ split_long_paragraph para)
    else paraAccum rest (if cur ≠ "" then cur ++ "\n\n" ++ para else para) acc

/-- The fixed insurance-topic vocabulary of `create_semantic_chunks`. -/
def insuranceTopics : List String :=
  ["grace period", "premium payment", "waiting period", "pre-existing diseases",
   "maternity", "cataract", "organ donor", "no claim discount", "ncd",
   "preventive health", "hospital definition", "ayush", "room rent", "icu",
   "sum insured", "policy terms", "exclusions", "coverage", "benefits",
   "arogya sanjeevani", "health insurance", "medical expenses"]

/-- `create_semantic_chunks`: for each topic, collect the (stripped)
sentences longer than 20 characters that mention it, join the first
three, and emit a high-importance `semantic` chunk when the combined
text exceeds 50 characters. -/
def create_semantic_chunks (text : String) : List Chunk :=
  let sentences := (splitRuns (fun c => c = '.' ∨ c = '!' ∨ c = '?') text.data).map String.mk
  insuranceTopics.filterMap (fun topic =>
    let topicChunks := (sentences.filter (fun s =>
      containsSub (pyLower s.data) topic.data && decide (20 < (pyStrip s).length))).map pyStrip
    if topicChunks ≠ [] then
      let combined := joinWords ((topicChunks.take 3).map String.data)
      if 50 < combined.length then
        some ⟨combined, "Information about " ++ topic, "semantic", 9/10,
          none, some topic, none, none, none, none⟩
      else none
    else none)

/-- `create_intelligent_chunks`: section-based chunking when sections
exist (sections whose stripped content exceeds 50 characters), else
paragraph accumulation; always followed by the semantic topic pass, and
capped at 50 chunks. -/
def create_intelligent_chunks (content : Content) : List Chunk :=
  let base :=
    if content.sections ≠ [] then
      content.sections.filterMap (fun sec =>
        if 50 < (pyStrip sec.content).length then
          some ⟨sec.content, sec.title, "section", 4/5, some sec.level,
            none, none, none, none, none⟩
        else none)
    else paraAccum (content.text.splitOn "\n\n") "" []
  (base ++ create_semantic_chunks content.text).take 50

/-- The mutable state of `IntelligentVectorService`: the FAISS index
rows, the chunk list and the chunk-text list. -/
structure VState where
  indexRows : List (List ℝ)
  chunks : List Chunk
  chunk_texts : List String

/-- The freshly initialized service: an empty 384-dimensional flat index
and no chunks. -/
def initVState : VState := ⟨[], [], []⟩

/-- `build_comprehensive_index(doc_id, content)` (also reachable as
`build_index`): chunk the content, embed every chunk text locally,
append the embeddings to the FAISS index and the annotated chunks to the
chunk list. -/
noncomputable def build_comprehensive_index (hash : String → Nat) (docId : String)
    (content : Content) (s : VState) : VState :=
  let chunks := create_intelligent_chunks content
  if chunks.isEmpty then s
  else
    let chunk_texts := chunks.map (·.text)
    let embeddings := create_simple_embeddings hash chunk_texts
    if embeddings.isEmpty then s
    else
      let start := s.chunks.length
      { indexRows := s.indexRows ++ embeddings,
        chunks := s.chunks ++ chunks.enum.map (fun p =>
          { p.2 with
            id := some (docId ++ "_" ++ toString p.1),
            doc_id := some docId,
            index_position := some (start + p.1),
            embedding := embeddings[p.1]? }),
        chunk_texts := s.chunk_texts ++ chunk_texts }

/-- The state-mutating operations of the vector service: an index build,
or the chunk-list seeding performed by `search_similar_chunks` when no
index exists yet (search itself reads but never removes or reorders). -/
inductive VOp where
  | build (docId : String) (content : Content)
  | searchSim (documents : List Content)

/-- Apply one service operation to the state. -/
noncomputable def applyVOp (hash : String → Nat) (op : VOp) (s : VState) : VState :=
  match op with
  | .build docId content => build_comprehensive_index hash docId content s
  | .searchSim docs =>
    if s.chunks.isEmpty then
      let appended := (docs.map create_intelligent_chunks).flatten
      { indexRows := s.indexRows,
        chunks := s.chunks ++ appended,
        chunk_texts := s.chunk_texts ++ appended.map (·.text) }
    else s

/-- Apply a sequence of index builds to the fresh service. -/
noncomputable def applyBuilds (hash : String → Nat) (ops : List (String × Content)) : VState :=
  ops.foldl (fun s op => build_comprehensive_index hash op.1 op.2 s) initVState

/-- The invariant claimed for the index: as many rows as chunks, and row
`i` is the local embedding of `chunks[i].text`. -/
def buildInv (hash : String → Nat) (s : VState) : Prop :=
  s.indexRows.length = s.chunks.length ∧
  ∀ i : Nat, s.indexRows[i]? = s.chunks[i]?.map (fun c => simpleEmbedOne hash c.text)

/-! ## Vector service: retrieval -/

/-- A retrieval-result dictionary.  The FAISS path fills all eight keys;
the lexical path fills the first four (absent keys are `none`). -/
structure SearchResult where
  chunk : Chunk
  score : ℚ
  distance : ℚ
  source : String
  relevance_score : Option ℚ
  confidence_score : Option ℚ
  retrieval_method : Option String
  context_quality : Option ℚ

/-- `assess_context_quality`. -/
def assess_context_quality (c : Chunk) : ℚ :=
  if 50 < c.text.length then 4/5 else 3/5

/-- `calculate_retrieval_confidence` (a constant). -/
def calculate_retrieval_confidence (_score : ℚ) : ℚ := 4/5

/-- Insert into a descending-by-score list, before the first element it
is ≥ (the behaviour of a stable descending sort for one element). -/
def insDesc (a : SearchResult) : List SearchResult → List SearchResult
  | [] => [a]
  | b :: t => if b.score ≤ a.score then a :: b :: t else b :: insDesc a t

/-- Stable descending-by-score sort:
`results.sort(key=lambda x: x['score'], reverse=True)`. -/
def isortDesc : List SearchResult → List SearchResult
  | [] => []
  | a :: t => insDesc a (isortDesc t)

/-- `text_based_search(query, k)`: score each chunk by case-insensitive
word-set overlap with the query, keep positive scores, sort descending,
return the top `k`. -/
def text_based_search (chunks : List Chunk) (query : String) (k : Nat) :
    List SearchResult :=
  let qwords := pySplitWs (pyLower query.data)
  let results := chunks.filterMap (fun c =>
    let cwords := pySplitWs (pyLower c.text.data)
    if qwords ≠ [] then
      let score := pySetScore qwords cwords
      if 0 < score then
        some ⟨c, score, 1 - score, "text_based", none, none, none, none⟩
      else none
    else none)
  (isortDesc results).take k

/-- The outcome of the `try` block of `advanced_hybrid_search` up to the
FAISS call: a (distance, row-index) table from
`self.index.search(query_vector, min(k, len(self.chunks)))`, a `None`
or empty query embedding, or an exception. -/
inductive QueryEmbedOutcome where
  | vec (pairs : List (ℚ × Int))
  | noVec
  | exn

/-- Python list indexing `chunks[idx]` (negative indices count from the
end; out of range is an `IndexError`, modelled as `none`). -/
def pyGetIdx (l : List Chunk) (i : Int) : Option Chunk :=
  let j : Int := if i < 0 then (l.length : Int) + i else i
  if 0 ≤ j then l[j.toNat]? else none

/-- The result-formatting loop of `advanced_hybrid_search`: rows whose
index passes `idx < len(self.chunks)` become results with similarity
score `max(0, 1 - distance/2)`; a failing chunk access raises, which
the surrounding `try` turns into the lexical fallback. -/
def formatLoop (chunks : List Chunk) : List (ℚ × Int) → Except Unit (List SearchResult)
  | [] => .ok []
  | (d, idx) :: rest =>
    if idx < (chunks.length : Int) then
      match pyGetIdx chunks idx with
      | some c =>
        (formatLoop chunks rest).map (fun rs =>
          ⟨c, max 0 (1 - d / 2), d, "gemini_embedding",
            some (max 0 (1 - d / 2)),
            some (calculate_retrieval_confidence (max 0 (1 - d / 2))),
            some "gemini_faiss", some (assess_context_quality c)⟩ :: rs)
      | none => .error ()
    else formatLoop chunks rest

/-- `advanced_hybrid_search(query, k)`: empty result on an empty chunk
list; otherwise the FAISS path when a query embedding and search results
are available, falling back to `text_based_search` when the embedding is
unavailable or anything in the vector path raises. -/
def advanced_hybrid_search (chunks : List Chunk) (query : String) (k : Nat)
    (out : QueryEmbedOutcome) : List SearchResult :=
  if chunks.isEmpty then []
  else
    match out with
    | .vec pairs =>
      match formatLoop chunks pairs with
      | .ok rs => rs
      | .error _ => text_based_search chunks query k
    | .noVec => text_based_search chunks query k
    | .exn => text_based_search chunks query k

/-- The contract of `faiss.IndexFlatL2.search` relevant here: at most
`min(k, len(chunks))` rows, ordered by non-decreasing distance. -/
def faissContract (out : QueryEmbedOutcome) (k : Nat) : Prop :=
  match out with
  | .vec pairs => pairs.length ≤ k ∧ List.Pairwise (fun p q : ℚ × Int => p.1 ≤ q.1) pairs
  | .noVec => True
  | .exn => True

/-- Results ordered by non-increasing score. -/
def sortedDesc (l : List SearchResult) : Prop :=
  List.Pairwise (fun x y => y.score ≤ x.score) l

/-- The lexical-overlap score of the claim: `|query_words ∩ chunk_words|
/ |query_words|` over case-insensitive word sets. -/
def lexScore (query : String) (c : Chunk) : ℚ :=
  pySetScore (pySplitWs (pyLower query.data)) (pySplitWs (pyLower c.text.data))

/-- A trivial stand-in for Python's string `hash`, used in witnesses. -/
def hash0 : String → Nat := fun _ => 0

/-- A bare chunk with the given text (all other keys as produced by the
paragraph chunker). -/
def mkChunk (text : String) : Chunk :=
  ⟨text, "Untitled", "paragraph", 4/5, none, none, none, none, none, none⟩

/-- Concrete chunks for the retrieval witness. -/
def witnessChunks : List Chunk :=
  [mkChunk "the grace period is thirty days",
   mkChunk "maternity expenses are covered",
   mkChunk "a grace period applies to premium payment"]

/-! ## LLM service (`services/llm_service.py`)

`EnhancedLLMService.generate_comprehensive_answer` and its helpers.
The md5 hash used for cache keys is modelled as an arbitrary function
parameter; the in-memory response cache is an association list (later
entries shadow earlier ones, matching dict lookup).
-/

/-- An inner chunk dictionary as seen by the LLM service: only its
`text` and (possibly absent) `doc_id` keys are ever read. -/
structure ChunkD where
  text : String
  doc_id : Option String
deriving DecidableEq, Repr

/-- One element of the `context_chunks` list: a retrieval-result
wrapper `{'chunk': {...}, 'score': ...}` (no top-level `doc_id`), a bare
chunk dictionary, or a non-dict value (only its `str()` is usable;
attribute access on it raises). -/
inductive CtxItem where
  | wrapped (chunk : ChunkD) (score : ℚ)
  | flat (chunk : ChunkD)
  | other (str : String)
deriving DecidableEq, Repr

/-- The context-text extraction loop of `generate_comprehensive_answer`:
`chunk['chunk'].get('text','')`, `chunk['text']`, or `str(chunk)`. -/
def itemText : CtxItem → String
  | .wrapped c _ => c.text
  | .flat c => c.text
  | .other s => s

/-- `_generate_cache_key(question, context)`:
`md5(f"{question}:{context[:500]}")`, with md5 an arbitrary digest
function parameter. -/
def generate_cache_key (md5 : String → String) (question context : String) : String :=
  md5 (question ++ ":" ++ context.take 500)

/-- `re.sub(r'\s+', ' ', text).strip()`: collapse whitespace runs and
strip the ends. -/
def collapseWs (s : String) : String :=
  joinWords (pySplitWs s.data)

/-- `optimize_context(context_chunks, question)`: clean and truncate the
texts of the first 5 chunks, keeping the non-empty ones. -/
def optimize_context (items : List CtxItem) (_question : String) : List String :=
  (items.take 5).filterMap (fun it =>
    let text := collapseWs (itemText it)
    let text2 := if 500 < text.length then text.take 500 ++ "..." else text
    if text2 ≠ "" then some text2 else none)

/-- The top-level `chunk.get('doc_id', 'unknown')` of
`extract_basic_citations`: a wrapper dict has no `doc_id` key, a bare
chunk may; a non-dict has no `.get` and raises (`none`). -/
def citeDocId : CtxItem → Option String
  | .wrapped _ _ => some "unknown"
  | .flat c => some (c.doc_id.getD "unknown")
  | .other _ => none

/-- The citation loop: first-seen-order deduplicated `doc_id`s; an
`AttributeError` on a non-dict is caught and yields `[]`. -/
def citLoop : List CtxItem → List String → List String
  | [], acc => acc
  | it :: rest, acc =>
    match citeDocId it with
    | none => []
    | some d => if d ∈ acc then citLoop rest acc else citLoop rest (acc ++ [d])

/-- `extract_basic_citations(answer, context_chunks)` (the answer is
never read). -/
def extract_basic_citations (items : List CtxItem) : List String :=
  citLoop (items.take 3) []

/-- `calculate_simple_confidence(answer, context, question)`. -/
def calculate_simple_confidence (answer : String) (context : List String)
    (question : String) : ℚ :=
  if answer = "" ∨ context = [] then 1/10
  else
    let aLen := (pySplitWs answer.data).length
    let cLen := (pySplitWs (String.intercalate " " context).data).length
    let base : ℚ := 1/2 + (if 20 < aLen then 1/5 else 0) + (if 100 < cLen then 1/5 else 0)
    let qwords := pySplitWs (pyLower question.data)
    let awords := pySplitWs (pyLower answer.data)
    let overlap : ℚ := if qwords ≠ [] then pySetScore qwords awords else 0
    min (19/20) (base + overlap * (1/10))

/-! ### `generate_local_response`: the rule-based local responder

The regular expressions of the source are embedded as executable
matchers over `List Char`.  The patterns all have the shape
`A.*?(\d+)\s*(?:u1|u2)`, `(\d+)\s*(?:u1|u2).*?A` or `A.*?B` with literal
`A`, `B` and unit alternatives `u1|u2`; since a digit run can only be
followed by more digits or a non-digit, and the unit literals start with
a letter, the backtracking of `(\d+)` and `\s*` always resolves to the
maximal digit run followed by the maximal whitespace run, which the
matchers below implement directly.  `.*?` does not match newlines. -/

/-- A maximal digit run at position `p`, followed by optional whitespace
and one of the unit literals (`(\d+)\s*(?:u1|u2)` anchored at `p`);
returns the digit run (capture group 1). -/
def digitUnitAt (units : List (List Char)) (s : List Char) (p : Nat) :
    Option (List Char) :=
  let run := (s.drop p).takeWhile Char.isDigit
  if run.isEmpty then none
  else
    let ws := (s.drop (p + run.length)).takeWhile Char.isWhitespace
    let q := p + run.length + ws.length
    if units.any (fun u => listAt u s q) then some run else none

/-- `re.search(kw + r".*?(\d+)\s*(?:u1|u2)", s)`: leftmost occurrence of
the literal `kw`, then the lazily-shortest newline-free gap to a
digits-whitespace-unit match; returns capture group 1. -/
def kwNumUnit (kw : List Char) (units : List (List Char)) (s : List Char) :
    Option (List Char) :=
  findFirst? (s.length + 1) (fun i =>
    if listAt kw s i then
      findFirst? (s.length + 1) (fun p =>
        if decide (i + kw.length ≤ p) && noNewline s (i + kw.length) p then
          digitUnitAt units s p
        else none)
    else none)

/-- `re.search(r"(\d+)\s*(?:u1|u2).*?" + kw, s)`: leftmost
digits-whitespace-unit match followed, after a newline-free gap, by the
literal `kw`; returns capture group 1.  (The gap is measured from the
end of the shortest matching unit alternative; the letters an optional
plural `s` would consume are never newlines, so gap feasibility is
unaffected.) -/
def numUnitKw (units : List (List Char)) (kw : List Char) (s : List Char) :
    Option (List Char) :=
  findFirst? (s.length + 1) (fun p =>
    match digitUnitAt units s p with
    | none => none
    | some run =>
      let ws := (s.drop (p + run.length)).takeWhile Char.isWhitespace
      let q := p + run.length + ws.length
      match units.find? (fun u => listAt u s q) with
      | none => none
      | some u =>
        if (List.range (s.length + 1)).any (fun j =>
            decide (q + u.length ≤ j) && listAt kw s j &&
              noNewline s (q + u.length) j) then
          some run
        else none)

/-- `re.search(a + r".*?" + b, s)` for literals `a`, `b`: `b` occurs
after an occurrence of `a`, with no newline in between. -/
def twoLit (a b s : List Char) : Bool :=
  (List.range (s.length + 1)).any (fun i =>
    listAt a s i && (List.range (s.length + 1)).any (fun j =>
      decide (i + a.length ≤ j) && listAt b s j && noNewline s (i + a.length) j))

/-- The answer template of the grace-period branch (`g` is capture
group 1 of the matched pattern). -/
def graceAnswer (g : List Char) : String :=
  "Based on the policy document, there is a grace period of " ++ String.mk g ++
  " days for premium payment. This allows policyholders to renew or continue their coverage without losing continuity benefits."

/-- The grace-period branch of `generate_local_response`: the four
`grace_patterns` are tried in order.  The first two carry a capture
group; the third and fourth (`grace period.*?thirty`,
`grace period.*?fifteen`) have **no** capture group, so the code's
`match.group(1)` raises `IndexError` when they match (`Except.error`). -/
def graceBranch (cl : List Char) : Except Unit (Option String) :=
  match kwNumUnit "grace period".data ["day".data, "month".data] cl with
  | some g => .ok (some (graceAnswer g))
  | none =>
  match numUnitKw ["day".data, "month".data] "grace period".data cl with
  | some g => .ok (some (graceAnswer g))
  | none =>
  if twoLit "grace period".data "thirty".data cl then .error ()
  else if twoLit "grace period".data "fifteen".data cl then .error ()
  else if containsSub cl "grace period".data then
    .ok (some "The policy provides a grace period for premium payment, allowing policyholders to renew their coverage without losing continuity benefits. The specific duration is mentioned in the policy terms.")
  else .ok none

/-- The answer template of the waiting-period branch. -/
def waitingAnswer (g : List Char) : String :=
  "According to the policy document, there is a waiting period of " ++ String.mk g ++
  " months for pre-existing diseases (PED) to be covered. This waiting period applies from the first policy inception."

/-- The waiting-period branch: the four `waiting_patterns` in order (all
carry a capture group), then the general fallback sentence. -/
def waitingBranch (cl : List Char) : Except Unit (Option String) :=
  match kwNumUnit "waiting period".data ["month".data, "year".data] cl with
  | some g => .ok (some (waitingAnswer g))
  | none =>
  match numUnitKw ["month".data, "year".data] "waiting period".data cl with
  | some g => .ok (some (waitingAnswer g))
  | none =>
  match kwNumUnit "pre-existing".data ["month".data, "year".data] cl with
  | some g => .ok (some (waitingAnswer g))
  | none =>
  match numUnitKw ["month".data, "year".data] "pre-existing".data cl with
  | some g => .ok (some (waitingAnswer g))
  | none =>
  if containsSub cl "pre-existing".data && containsSub cl "waiting".data then
    .ok (some "The policy has a waiting period for pre-existing diseases. The specific duration is outlined in the policy terms and conditions.")
  else .ok none

/-- The maternity branch: any of the four `coverage_patterns` yields the
detailed answer, a bare mention of maternity the generic one. -/
def maternityBranch (cl : List Char) : Option String :=
  if containsSub cl "maternity".data then
    if twoLit "maternity".data "cover".data cl ||
        twoLit "cover".data "maternity".data cl ||
        twoLit "maternity".data "expenses".data cl ||
        twoLit "childbirth".data "cover".data cl then
      some "Yes, the policy covers maternity expenses including childbirth and lawful medical termination of pregnancy. There are specific conditions and waiting periods that apply, as detailed in the policy document."
    else
      some "The policy includes coverage for maternity-related expenses. Please refer to the specific terms and conditions in the policy document for detailed coverage information."
  else none

/-- The fixed cannot-find answer (the default of the local responder,
its exception handler, and the no-context paths of
`generate_comprehensive_answer`). -/
def cannotFindMsg : String :=
  "Based on the provided document, I cannot find specific information to answer this question accurately."

/-- The closing part of `generate_local_response`: word-overlap
relevance over 0.3 selects up to two question-relevant sentences, else
the default cannot-find text (with its extra trailing sentence). -/
def generalResponse (ql cl full : List Char) : String :=
  let qwords := pySplitWs ql
  let cwords := pySplitWs cl
  let relevance : ℚ := if qwords ≠ [] then pySetScore qwords cwords else 0
  if 3/10 < relevance then
    let sentences := (splitRuns (fun c => c = '.' ∨ c = '!' ∨ c = '?') full).map String.mk
    let relevant := (sentences.filter (fun sent =>
      qwords.any (fun w => decide (3 < w.length) && containsSub (pyLower sent.data) w))).map pyStrip
    if relevant ≠ [] then
      "Based on the policy document: " ++ String.intercalate " " (relevant.take 2) ++
      ". For complete details, please refer to the full policy terms and conditions."
    else
      cannotFindMsg ++ " Please refer to the policy document for detailed terms and conditions."
  else
    cannotFindMsg ++ " Please refer to the policy document for detailed terms and conditions."

/-- The `try` body of `generate_local_response`: the keyword-dispatched
`elif` chain over the lowercased question, falling through to the
general relevance-based response when no branch returns. -/
def glrBody (question : String) (context : List String) : Except Unit String :=
  let full := (String.intercalate " " context).data
  let ql := pyLower question.data
  let cl := pyLower full
  let branch : Except Unit (Option String) :=
    if containsSub ql "grace period".data && containsSub ql "premium".data then
      graceBranch cl
    else if containsSub ql "waiting period".data &&
        (containsSub ql "pre-existing".data || containsSub ql "ped".data) then
      waitingBranch cl
    else if containsSub ql "maternity".data && containsSub ql "expenses".data then
      .ok (maternityBranch cl)
    else if containsSub ql "cataract".data && containsSub ql "waiting period".data then
      .ok (if containsSub cl "cataract".data then
        some "The policy has a specific waiting period for cataract surgery. The exact duration and conditions are specified in the policy terms."
      else none)
    else if containsSub ql "organ donor".data && containsSub ql "expenses".data then
      .ok (if containsSub cl "organ".data && containsSub cl "donor".data then
        some "Yes, the policy covers medical expenses for organ donor hospitalization, provided the organ is for an insured person and the donation complies with relevant transplantation laws."
      else none)
    else if containsSub ql "no claim discount".data || containsSub ql "ncd".data then
      .ok (if containsSub cl "no claim".data || containsSub cl "ncd".data then
        some "The policy offers No Claim Discount (NCD) benefits. The specific discount percentages and conditions are outlined in the policy document."
      else none)
    else if containsSub ql "preventive".data && containsSub ql "health check".data then
      .ok (if containsSub cl "preventive".data || containsSub cl "health check".data then
        some "Yes, the policy provides benefits for preventive health check-ups. The frequency and coverage limits are specified in the policy terms."
      else none)
    else if containsSub ql "hospital".data && containsSub ql "define".data then
      .ok (if containsSub cl "hospital".data then
        some "A 'Hospital' is defined as an institution established for in-patient care and day care treatment of illness and/or injuries, registered with local authorities under relevant healthcare regulations."
      else none)
    else if containsSub ql "ayush".data && containsSub ql "treatment".data then
      .ok (if containsSub cl "ayush".data then
        some "The policy covers AYUSH treatments (Ayurveda, Yoga, Naturopathy, Unani, Siddha, and Homeopathy) up to specified limits, provided the treatment is taken in recognized institutions."
      else none)
    else if (containsSub ql "room rent".data || containsSub ql "icu".data) &&
        containsSub ql "sub-limit".data then
      .ok (if containsSub cl "room rent".data || containsSub cl "icu".data then
        some "The policy has sub-limits on room rent and ICU charges. The specific limits are detailed in the policy document and vary by plan type."
      else none)
    else .ok none
  match branch with
  | .error e => .error e
  | .ok (some s) => .ok s
  | .ok none => .ok (generalResponse ql cl full)

/-- `generate_local_response(question, context)`: the `try` body, with
every exception caught and turned into the cannot-find answer. -/
def generate_local_response (question : String) (context : List String) : String :=
  match glrBody question context with
  | .ok s => s
  | .error _ => cannotFindMsg

/-! ### `generate_comprehensive_answer` -/

/-- The observable fields of the answer dictionary (`answer`,
`confidence_score`, `citations`, and the `primary_model` metadata entry
that records which path produced it). -/
structure AnswerResult where
  answer : String
  confidence_score : ℚ
  citations : List String
  primary_model : String
deriving DecidableEq, Repr

/-- `generate_comprehensive_answer(question, context_chunks)` over a
response-cache state.  Returns the result, the updated cache, and
whether the (local) generation step ran.  The `try` around
`generate_local_response` is omitted because that function handles its
exceptions internally and is total, so the error path is unreachable;
the rate-limiter sleep has no observable effect and is not modelled. -/
def generate_comprehensive_answer (md5 : String → String)
    (cache : List (String × String)) (question : String) (items : List CtxItem) :
    AnswerResult × List (String × String) × Bool :=
  if items.isEmpty then
    (⟨cannotFindMsg, 0, [], "no_context"⟩, cache, false)
  else
    let context_text := String.join (items.map itemText)
    if pyStrip context_text = "" then
      (⟨cannotFindMsg, 0, [], "empty_context"⟩, cache, false)
    else
      let key := generate_cache_key md5 question context_text
      match cache.lookup key with
      | some cached => (⟨cached, 4/5, [], "cached"⟩, cache, false)
      | none =>
        let optimized := optimize_context items question
        let answer := generate_local_response question optimized
        (⟨answer, calculate_simple_confidence answer optimized question,
          extract_basic_citations items, "local_intelligent"⟩,
         (key, answer) :: cache, true)

/-- The identity digest, used in witnesses (any digest function works). -/
def md5id : String → String := fun s => s

/-- The document text of the end-to-end grace-period scenario. -/
def graceDoc : String := "Grace Period: A grace period of thirty days is allowed."

/-- The question of the end-to-end grace-period scenario. -/
def graceQuestion : String := "What is the grace period for premium payment?"

/-- Concrete wrapped retrieval results (the shape the pipeline passes to
the answer generator) with two distinct chunk `doc_id`s. -/
def c9items : List CtxItem :=
  [.wrapped ⟨"the policy covers hospital treatment", some "d1"⟩ 1,
   .wrapped ⟨"room rent has a sub-limit", some "d2"⟩ (1/2)]

/-- A context item list for the cache-idempotence witness. -/
def c8items : List CtxItem := [.flat ⟨"a grace period applies", some "d1"⟩]

/-- Whether a context item is a Python dict (attribute access on a
non-dict raises). -/
def isDictItem : CtxItem → Bool
  | .other _ => false
  | _ => true

/-- The value `chunk.get('doc_id', 'unknown')` reads from a dict item:
a retrieval-result wrapper has no top-level `doc_id` key. -/
def topDocId : CtxItem → String
  | .wrapped _ _ => "unknown"
  | .flat c => c.doc_id.getD "unknown"
  | .other _ => "unknown"

/-! ## Claims C3, C4, C5 -/

/-- **C3** (counterexample). For a URL whose payload always exceeds the
100MB limit, `download_with_retries` makes all 3 download attempts — the
size error is retried like any other failure — refuting the claim that
no further download attempt is made after the size limit is exceeded. -/
theorem C3_counterexample :
    (download_with_retries oversizedAtt 3).attemptsMade = 3 ∧
    ¬ (download_with_retries oversizedAtt 3).attemptsMade = 1 ∧
    (download_with_retries oversizedAtt 3).value =
      .error (.tooLarge (100 * 1024 * 1024 + 1)) := by
  refine ⟨rfl, by decide, rfl⟩

/-- **C3** (amended). For every URL whose downloaded payload exceeds the
100MB limit on every attempt, the fetch fails with the size-limit
`ValueError` only after exhausting all 3 attempts: the oversize error is
caught by the generic retry handler and retried with backoff delays of
1s and 2s, and the final attempt's error propagates. -/
theorem C3_size_error_is_retried (att : Nat → Attempt)
    (h : ∀ i, ∃ sz, att i = .resp 200 sz ∧ 100 * 1024 * 1024 < sz) :
    (download_with_retries att 3).attemptsMade = 3 ∧
    (∃ sz, 100 * 1024 * 1024 < sz ∧
      (download_with_retries att 3).value = .error (.tooLarge sz)) ∧
    (download_with_retries att 3).delays = [1, 2] := by
  obtain ⟨s0, h0, hs0⟩ := h 0
  obtain ⟨s1, h1, hs1⟩ := h 1
  obtain ⟨s2, h2, hs2⟩ := h 2
  have e0 : attemptOnce (att 0) = .error (.tooLarge s0) := by
    simp [h0, attemptOnce, hs0]
  have e1 : attemptOnce (att 1) = .error (.tooLarge s1) := by
    simp [h1, attemptOnce, hs1]
  have e2 : attemptOnce (att 2) = .error (.tooLarge s2) := by
    simp [h2, attemptOnce, hs2]
  have hrun : download_with_retries att 3 = ⟨.error (.tooLarge s2), 3, [1, 2]⟩ := by
    norm_num [download_with_retries, dwrGo, e0, e1, e2]
  rw [hrun]
  exact ⟨rfl, ⟨s2, hs2, rfl⟩, rfl⟩

/-- **C3** (witness). The amended theorem applied to the concrete
always-oversized URL. -/
theorem C3_witness :
    (download_with_retries oversizedAtt 3).attemptsMade = 3 ∧
    (∃ sz, 100 * 1024 * 1024 < sz ∧
      (download_with_retries oversizedAtt 3).value = .error (.tooLarge sz)) ∧
    (download_with_retries oversizedAtt 3).delays = [1, 2] :=
  C3_size_error_is_retried oversizedAtt
    (fun _ => ⟨100 * 1024 * 1024 + 1, rfl, by norm_num⟩)

/-- **C4** (counterexample). For a URL yielding HTTP 500 on every
attempt, the backoff delays actually slept are `[1, 2]` — there is no
4-second delay, because no sleep follows the final attempt — refuting
the claimed delay sequence 1s, 2s, 4s. -/
theorem C4_counterexample :
    (download_with_retries att500 3).delays = [1, 2] ∧
    (download_with_retries att500 3).delays ≠ [1, 2, 4] := by
  refine ⟨rfl, by decide⟩

/-- **C4** (amended). For every URL that yields HTTP 500 on every
attempt, the fetcher makes exactly 3 attempts, sleeping `2^attempt`
seconds after each failed attempt except the last — delays of 1s and
2s — and then propagates the final attempt's exception (the raw
HTTP-status client error; no separate `FetchError` wrapper exists). -/
theorem C4_three_attempts_two_delays (att : Nat → Attempt)
    (h : ∀ i, ∃ sz, att i = .resp 500 sz) :
    (download_with_retries att 3).attemptsMade = 3 ∧
    (download_with_retries att 3).value = .error (.httpStatus 500) ∧
    (download_with_retries att 3).delays = [1, 2] := by
  obtain ⟨s0, h0⟩ := h 0
  obtain ⟨s1, h1⟩ := h 1
  obtain ⟨s2, h2⟩ := h 2
  have e0 : attemptOnce (att 0) = .error (.httpStatus 500) := by
    simp [h0, attemptOnce]
  have e1 : attemptOnce (att 1) = .error (.httpStatus 500) := by
    simp [h1, attemptOnce]
  have e2 : attemptOnce (att 2) = .error (.httpStatus 500) := by
    simp [h2, attemptOnce]
  have hrun : download_with_retries att 3 = ⟨.error (.httpStatus 500), 3, [1, 2]⟩ := by
    norm_num [download_with_retries, dwrGo, e0, e1, e2]
  rw [hrun]
  exact ⟨rfl, rfl, rfl⟩

/-- **C4** (witness). The amended theorem applied to the concrete
always-500 URL. -/
theorem C4_witness :
    (download_with_retries att500 3).attemptsMade = 3 ∧
    (download_with_retries att500 3).value = .error (.httpStatus 500) ∧
    (download_with_retries att500 3).delays = [1, 2] :=
  C4_three_attempts_two_delays att500 (fun _ => ⟨0, rfl⟩)

/-- **C5** (counterexample). On the synthetic input
`"TITLE\nbody text\n\nSECTION TWO:\nmore text\n"` the two detected
sections have levels 1 and 1 — `"SECTION TWO:"` satisfies Python
`isupper()`, so the uppercase rule (level 1) fires before the
colon rule (level 2) — refuting the claimed levels 1 and 2. -/
theorem C5_counterexample :
    (analyze_document_structure sectioningInput).map PySection.level = [1, 1] ∧
    (analyze_document_structure sectioningInput).map PySection.level ≠ [1, 2] := by
  refine ⟨by decide, by decide⟩

/-- **C5** (amended). A stripped line is classified as a heading exactly
when it is shorter than 100 characters and is all-uppercase, ends with
`':'`, or starts with a `<number>.` pattern; the heading level is
assigned by the *first* matching rule in the order uppercase (1),
colon-terminated (2), numbered (3), else 0 — so an all-uppercase line
ending in `':'` gets level 1.  The synthetic input
`"TITLE\nbody text\n\nSECTION TWO:\nmore text\n"` yields exactly 2
sections, with levels 1 and 1 respectively. -/
theorem C5_sectioning :
    (∀ line : String,
      isHeadingLine line = true ↔
        (line.length < 100 ∧
          (pyIsUpper line.data = true ∨ line.data.getLast? = some ':' ∨
            matchesNumbered line.data = true))) ∧
    (∀ line : String,
      (pyIsUpper line.data = true → determine_header_level line = 1) ∧
      (pyIsUpper line.data = false → line.data.getLast? = some ':' →
        determine_header_level line = 2) ∧
      (pyIsUpper line.data = false → line.data.getLast? ≠ some ':' →
        matchesNumbered line.data = true → determine_header_level line = 3) ∧
      (pyIsUpper line.data = false → line.data.getLast? ≠ some ':' →
        matchesNumbered line.data = false → determine_header_level line = 0)) ∧
    analyze_document_structure sectioningInput =
      [⟨"TITLE", "body text\n", 1⟩, ⟨"SECTION TWO:", "more text\n", 1⟩] := by
  refine ⟨?_, ?_, by decide⟩
  · intro line
    simp only [isHeadingLine, Bool.and_eq_true, Bool.or_eq_true, decide_eq_true_eq,
      or_assoc]
  · intro line
    refine ⟨?_, ?_, ?_, ?_⟩
    · intro h; simp [determine_header_level, h]
    · intro h hc; simp [determine_header_level, h, hc]
    · intro h hc hn; simp [determine_header_level, h, hc, hn]
    · intro h hc hn; simp [determine_header_level, h, hc, hn]

/-- **C5** (witness). The amended theorem applied at concrete lines:
`"SECTION TWO:"` is a heading of level 1, `"2. Scope"` a heading of
level 3, and the concrete sectioning example evaluates as stated. -/
theorem C5_witness :
    isHeadingLine "SECTION TWO:" = true ∧
    determine_header_level "SECTION TWO:" = 1 ∧
    determine_header_level "Scope:" = 2 ∧
    determine_header_level "2. Scope" = 3 ∧
    determine_header_level "plain text" = 0 := by
  refine ⟨?_, ?_, ?_, ?_, ?_⟩
  · exact (C5_sectioning.1 "SECTION TWO:").2 (by decide)
  · exact (C5_sectioning.2.1 "SECTION TWO:").1 (by decide)
  · exact (C5_sectioning.2.1 "Scope:").2.1 (by decide) (by decide)
  · exact (C5_sectioning.2.1 "2. Scope").2.2.1 (by decide) (by decide) (by decide)
  · exact (C5_sectioning.2.1 "plain text").2.2.2 (by decide) (by decide) (by decide)

/-! ## Helper lemmas: stable descending sort -/

theorem mem_insDesc {x a : SearchResult} {l : List SearchResult}
    (h : x ∈ insDesc a l) : x = a ∨ x ∈ l := by
  induction l with
  | nil => simpa [insDesc] using h
  | cons b t ih =>
    by_cases hc : b.score ≤ a.score
    · simp only [insDesc, if_pos hc, List.mem_cons] at h
      rcases h with h | h | h
      · exact Or.inl h
      · exact Or.inr (List.mem_cons.2 (Or.inl h))
      · exact Or.inr (List.mem_cons.2 (Or.inr h))
    · simp only [insDesc, if_neg hc, List.mem_cons] at h
      rcases h with h | h
      · exact Or.inr (List.mem_cons.2 (Or.inl h))
      · rcases ih h with h' | h'
        · exact Or.inl h'
        · exact Or.inr (List.mem_cons.2 (Or.inr h'))

theorem insDesc_sorted {a : SearchResult} {l : List SearchResult}
    (h : sortedDesc l) : sortedDesc (insDesc a l) := by
  induction l with
  | nil => simp [insDesc, sortedDesc]
  | cons b t ih =>
    rcases List.pairwise_cons.1 h with ⟨hb, ht⟩
    by_cases hc : b.score ≤ a.score
    · simp only [insDesc, if_pos hc]
      refine List.pairwise_cons.2 ⟨?_, h⟩
      intro y hy
      rcases List.mem_cons.1 hy with rfl | hy
      · exact hc
      · exact le_trans (hb y hy) hc
    · simp only [insDesc, if_neg hc]
      refine List.pairwise_cons.2 ⟨?_, ih ht⟩
      intro y hy
      rcases mem_insDesc hy with rfl | hy
      · exact le_of_lt (lt_of_not_le hc)
      · exact hb y hy

theorem isortDesc_sorted (l : List SearchResult) : sortedDesc (isortDesc l) := by
  induction l with
  | nil => simp [isortDesc, sortedDesc]
  | cons a t ih => exact insDesc_sorted ih

theorem mem_isortDesc {x : SearchResult} {l : List SearchResult}
    (h : x ∈ isortDesc l) : x ∈ l := by
  induction l with
  | nil => simp [isortDesc] at h
  | cons a t ih =>
    rcases mem_insDesc h with rfl | h'
    · exact List.mem_cons.2 (Or.inl rfl)
    · exact List.mem_cons.2 (Or.inr (ih h'))

/-! ## Helper lemmas: the lexical and FAISS retrieval paths -/

theorem text_search_facts (chunks : List Chunk) (query : String) (k : Nat) :
    (∀ r ∈ text_based_search chunks query k,
      r.score = lexScore query r.chunk ∧ 0 < r.score) ∧
    (text_based_search chunks query k).length ≤ k ∧
    sortedDesc (text_based_search chunks query k) := by
  refine ⟨?_, ?_, ?_⟩
  · intro r hr
    have h1 : r ∈ isortDesc (chunks.filterMap (fun c =>
        let cwords := pySplitWs (pyLower c.text.data)
        if pySplitWs (pyLower query.data) ≠ [] then
          let score := pySetScore (pySplitWs (pyLower query.data)) cwords
          if 0 < score then
            some ⟨c, score, 1 - score, "text_based", none, none, none, none⟩
          else none
        else none)) := List.mem_of_mem_take hr
    have h2 := mem_isortDesc h1
    rw [List.mem_filterMap] at h2
    obtain ⟨c, _, hc⟩ := h2
    simp only at hc
    split_ifs at hc with h3 h4
    · cases hc
      exact ⟨rfl, h4⟩
  · exact List.length_take_le k _
  · exact (isortDesc_sorted _).sublist (List.take_sublist k _)

theorem hybridScoreMono {d e : ℚ} (h : d ≤ e) :
    max 0 (1 - e / 2) ≤ max 0 (1 - d / 2) :=
  max_le_max le_rfl (by linarith)

theorem formatLoop_ok {chunks : List Chunk} :
    ∀ {pairs : List (ℚ × Int)} {rs : List SearchResult},
      formatLoop chunks pairs = .ok rs →
      rs.length ≤ pairs.length ∧
      (∀ r ∈ rs, ∃ p ∈ pairs, r.score = max 0 (1 - p.1 / 2)) := by
  intro pairs
  induction pairs with
  | nil =>
    intro rs h
    simp only [formatLoop] at h
    cases h
    simp
  | cons p rest ih =>
    intro rs h
    obtain ⟨d, idx⟩ := p
    simp only [formatLoop] at h
    split_ifs at h with hlt
    · cases hg : pyGetIdx chunks idx with
      | some c =>
        rw [hg] at h
        cases he : formatLoop chunks rest with
        | error e => rw [he] at h; simp [Except.map] at h
        | ok rs' =>
          rw [he] at h
          simp only [Except.map] at h
          cases h
          obtain ⟨hlen, hmem⟩ := ih he
          refine ⟨by simpa using Nat.succ_le_succ hlen, ?_⟩
          intro r hr
          rcases List.mem_cons.1 hr with rfl | hr
          · exact ⟨(d, idx), List.mem_cons.2 (Or.inl rfl), rfl⟩
          · obtain ⟨q, hq, hsc⟩ := hmem r hr
            exact ⟨q, List.mem_cons.2 (Or.inr hq), hsc⟩
      | none => rw [hg] at h; cases h
    · obtain ⟨hlen, hmem⟩ := ih h
      refine ⟨le_trans hlen (Nat.le_succ _), ?_⟩
      intro r hr
      obtain ⟨q, hq, hsc⟩ := hmem r hr
      exact ⟨q, List.mem_cons.2 (Or.inr hq), hsc⟩

theorem formatLoop_sorted {chunks : List Chunk} :
    ∀ {pairs : List (ℚ × Int)} {rs : List SearchResult},
      List.Pairwise (fun p q : ℚ × Int => p.1 ≤ q.1) pairs →
      formatLoop chunks pairs = .ok rs → sortedDesc rs := by
  intro pairs
  induction pairs with
  | nil =>
    intro rs _ h
    simp only [formatLoop] at h
    cases h
    simp [sortedDesc]
  | cons p rest ih =>
    intro rs hp h
    obtain ⟨d, idx⟩ := p
    rcases List.pairwise_cons.1 hp with ⟨hd, hp'⟩
    simp only [formatLoop] at h
    split_ifs at h with hlt
    · cases hg : pyGetIdx chunks idx with
      | some c =>
        rw [hg] at h
        cases he : formatLoop chunks rest with
        | error e => rw [he] at h; simp [Except.map] at h
        | ok rs' =>
          rw [he] at h
          simp only [Except.map] at h
          cases h
          refine List.pairwise_cons.2 ⟨?_, ih hp' he⟩
          intro r hr
          obtain ⟨q, hq, hsc⟩ := (formatLoop_ok he).2 r hr
          rw [hsc]
          exact hybridScoreMono (hd q hq)
      | none => rw [hg] at h; cases h
    · exact ih hp' h

/-! ## Claim C6 -/

/-- **C6**. For every query, every chunk-list state and every FAISS
outcome satisfying the flat-index contract, `advanced_hybrid_search`
returns at most `k` results ordered by non-increasing score and returns
`[]` when no chunks exist; and on the lexical fallback path
(`text_based_search`) every returned result's score equals
`|query_words ∩ chunk_words| / |query_words|` over case-insensitive word
sets, only results with positive score are returned, and the fallback
itself also returns at most `k` results in non-increasing score order. -/
theorem C6_retriever (chunks : List Chunk) (query : String) (k : Nat)
    (out : QueryEmbedOutcome) (h : faissContract out k) :
    (advanced_hybrid_search chunks query k out).length ≤ k ∧
    sortedDesc (advanced_hybrid_search chunks query k out) ∧
    (chunks.isEmpty = true → advanced_hybrid_search chunks query k out = []) ∧
    (∀ r ∈ text_based_search chunks query k,
      r.score = lexScore query r.chunk ∧ 0 < r.score) ∧
    (text_based_search chunks query k).length ≤ k ∧
    sortedDesc (text_based_search chunks query k) := by
  obtain ⟨htf, htl, hts⟩ := text_search_facts chunks query k
  refine ⟨?_, ?_, ?_, htf, htl, hts⟩
  · unfold advanced_hybrid_search
    split_ifs with hc
    · simp
    · cases out with
      | vec pairs =>
        obtain ⟨h1, h2⟩ := h
        cases he : formatLoop chunks pairs with
        | ok rs =>
          simp only [he]
          exact le_trans (formatLoop_ok he).1 h1
        | error e => simp only [he]; exact htl
      | noVec => exact htl
      | exn => exact htl
  · unfold advanced_hybrid_search
    split_ifs with hc
    · simp [sortedDesc]
    · cases out with
      | vec pairs =>
        obtain ⟨h1, h2⟩ := h
        cases he : formatLoop chunks pairs with
        | ok rs => simp only [he]; exact formatLoop_sorted h2 he
        | error e => simp only [he]; exact hts
      | noVec => exact hts
      | exn => exact hts
  · intro hc
    unfold advanced_hybrid_search
    rw [if_pos hc]

/-- **C6** (witness). The theorem applied at a concrete state: three
chunks, query `"grace period"`, `k = 2`, and a FAISS table with two
ascending-distance rows. -/
theorem C6_witness :
    faissContract (QueryEmbedOutcome.vec [((0 : ℚ), (0 : Int)), (1, 1)]) 2 ∧
    ((advanced_hybrid_search witnessChunks "grace period" 2
        (QueryEmbedOutcome.vec [((0 : ℚ), (0 : Int)), (1, 1)])).length ≤ 2 ∧
      sortedDesc (advanced_hybrid_search witnessChunks "grace period" 2
        (QueryEmbedOutcome.vec [((0 : ℚ), (0 : Int)), (1, 1)])) ∧
      (witnessChunks.isEmpty = true →
        advanced_hybrid_search witnessChunks "grace period" 2
          (QueryEmbedOutcome.vec [((0 : ℚ), (0 : Int)), (1, 1)]) = []) ∧
      (∀ r ∈ text_based_search witnessChunks "grace period" 2,
        r.score = lexScore "grace period" r.chunk ∧ 0 < r.score) ∧
      (text_based_search witnessChunks "grace period" 2).length ≤ 2 ∧
      sortedDesc (text_based_search witnessChunks "grace period" 2)) := by
  have hcontract : faissContract
      (QueryEmbedOutcome.vec [((0 : ℚ), (0 : Int)), (1, 1)]) 2 :=
    ⟨by norm_num, by decide⟩
  exact ⟨hcontract,
    C6_retriever witnessChunks "grace period" 2
      (QueryEmbedOutcome.vec [((0 : ℚ), (0 : Int)), (1, 1)]) hcontract⟩

/-! ## Helper lemmas: the index-build invariant -/

theorem buildInv_init (hash : String → Nat) : buildInv hash initVState := by
  constructor
  · rfl
  · intro i; rfl

theorem embed_text_of_update (hash : String → Nat) (docId : String)
    (start : Nat) (embs : List (List ℝ)) (p : Nat × Chunk) :
    simpleEmbedOne hash
      ({ p.2 with
          id := some (docId ++ "_" ++ toString p.1),
          doc_id := some docId,
          index_position := some (start + p.1),
          embedding := embs[p.1]? } : Chunk).text =
    simpleEmbedOne hash p.2.text := rfl

theorem buildInv_step (hash : String → Nat) (docId : String) (content : Content)
    (s : VState) (h : buildInv hash s) :
    buildInv hash (build_comprehensive_index hash docId content s) := by
  unfold build_comprehensive_index
  by_cases hc : (create_intelligent_chunks content).isEmpty
  · simp only [hc, if_true]
    exact h
  · simp only [hc, if_false, Bool.false_eq_true]
    have hcs : create_intelligent_chunks content ≠ [] := by
      intro h0
      rw [h0] at hc
      exact hc rfl
    obtain ⟨c0, cs0, hcons⟩ := List.exists_cons_of_ne_nil hcs
    have hne :
        (create_simple_embeddings hash
          ((create_intelligent_chunks content).map (·.text))).isEmpty = false := by
      simp [create_simple_embeddings, hcons]
    simp only [hne, if_false, Bool.false_eq_true]
    constructor
    · simp only [List.length_append, create_simple_embeddings, List.length_map,
        List.enum_length, h.1]
    · intro i
      by_cases hi : i < s.indexRows.length
      · rw [List.getElem?_append_left hi, List.getElem?_append_left (h.1 ▸ hi)]
        exact h.2 i
      · push_neg at hi
        rw [List.getElem?_append_right hi, List.getElem?_append_right (h.1 ▸ hi)]
        rw [← h.1]
        set cs := create_intelligent_chunks content with hcs
        set j := i - s.indexRows.length with hj
        rw [create_simple_embeddings, List.getElem?_map, List.getElem?_map,
          List.getElem?_map, List.getElem?_enum]
        cases hcj : cs[j]? with
        | none => rfl
        | some c => rfl

theorem applyVOp_append_only (hash : String → Nat) (op : VOp) (s : VState) :
    ∃ rowsAdded chunksAdded,
      (applyVOp hash op s).indexRows = s.indexRows ++ rowsAdded ∧
      (applyVOp hash op s).chunks = s.chunks ++ chunksAdded := by
  cases op with
  | build docId content =>
    show ∃ rowsAdded chunksAdded,
      (build_comprehensive_index hash docId content s).indexRows =
        s.indexRows ++ rowsAdded ∧
      (build_comprehensive_index hash docId content s).chunks =
        s.chunks ++ chunksAdded
    unfold build_comprehensive_index
    by_cases hc : (create_intelligent_chunks content).isEmpty
    · simp only [hc, if_true]
      exact ⟨[], [], by simp, by simp⟩
    · rw [Bool.not_eq_true] at hc
      by_cases he :
        (create_simple_embeddings hash
          ((create_intelligent_chunks content).map (·.text))).isEmpty
      · simp only [hc, Bool.false_eq_true, if_false, he, if_true]
        exact ⟨[], [], by simp, by simp⟩
      · rw [Bool.not_eq_true] at he
        simp only [hc, he, Bool.false_eq_true, if_false]
        exact ⟨_, _, rfl, rfl⟩
  | searchSim docs =>
    show ∃ rowsAdded chunksAdded,
      (applyVOp hash (VOp.searchSim docs) s).indexRows = s.indexRows ++ rowsAdded ∧
      (applyVOp hash (VOp.searchSim docs) s).chunks = s.chunks ++ chunksAdded
    unfold applyVOp
    by_cases hc : s.chunks.isEmpty
    · simp only [hc, if_true]
      exact ⟨[], _, by simp, rfl⟩
    · rw [Bool.not_eq_true] at hc
      simp only [hc, Bool.false_eq_true, if_false]
      exact ⟨[], [], by simp, by simp⟩

/-! ## Claim C1 -/

/-- **C1**. For every sequence of index builds on the vector service
(and any string-hash function), the resulting state satisfies the index
invariant: the flat index holds exactly as many vectors as there are
stored chunks, and row `i` is the local embedding of `chunks[i].text`.
Moreover no operation of the service (build, or the chunk seeding done
by `search_similar_chunks`) removes or reorders index rows or chunks:
each operation extends both lists purely by appending. -/
theorem C1_index_invariant (hash : String → Nat) :
    (∀ ops : List (String × Content), buildInv hash (applyBuilds hash ops)) ∧
    (∀ (op : VOp) (s : VState),
      ∃ rowsAdded chunksAdded,
        (applyVOp hash op s).indexRows = s.indexRows ++ rowsAdded ∧
        (applyVOp hash op s).chunks = s.chunks ++ chunksAdded) := by
  constructor
  · intro ops
    unfold applyBuilds
    have hgen : ∀ (l : List (String × Content)) (s : VState), buildInv hash s →
        buildInv hash
          (l.foldl (fun s op => build_comprehensive_index hash op.1 op.2 s) s) := by
      intro l
      induction l with
      | nil => intro s hs; exact hs
      | cons op t ih =>
        intro s hs
        exact ih _ (buildInv_step hash op.1 op.2 s hs)
    exact hgen ops initVState (buildInv_init hash)
  · exact applyVOp_append_only hash

/-! ## Helper lemmas: the local embedding -/

theorem mem_dedupGo [DecidableEq α] {a : α} :
    ∀ {l : List α} {seen : List α}, a ∈ dedupGo seen l → a ∈ l := by
  intro l
  induction l with
  | nil => intro seen h; simp [dedupGo] at h
  | cons b t ih =>
    intro seen h
    simp only [dedupGo] at h
    split_ifs at h with hb
    · exact List.mem_cons.2 (Or.inr (ih h))
    · rcases List.mem_cons.1 h with rfl | h'
      · exact List.mem_cons.2 (Or.inl rfl)
      · exact List.mem_cons.2 (Or.inr (ih h'))

theorem foldl_set_length (f : String × Nat → Nat) :
    ∀ (l : List (String × Nat)) (init : List ℝ),
      (l.foldl (fun v wf => v.set (f wf) (wf.2 : ℝ)) init).length = init.length := by
  intro l
  induction l with
  | nil => intro init; rfl
  | cons x t ih =>
    intro init
    rw [List.foldl_cons, ih, List.length_set]

theorem rawVec_length (hash : String → Nat) (text : String) :
    (rawVec hash text).length = 384 := by
  unfold rawVec
  rw [foldl_set_length (fun wf => hash wf.1 % 384), List.length_replicate]

theorem simpleEmbedOne_length (hash : String → Nat) (text : String) :
    (simpleEmbedOne hash text).length = 384 := by
  simp only [simpleEmbedOne]
  split_ifs with h
  · rw [List.length_map, rawVec_length]
  · rw [rawVec_length]

theorem sum_sq_nonneg (v : List ℝ) : 0 ≤ (v.map (fun x => x ^ 2)).sum := by
  apply List.sum_nonneg
  intro x hx
  obtain ⟨y, _, rfl⟩ := List.mem_map.1 hx
  exact sq_nonneg y

theorem sum_sq_pos {v : List ℝ} :
    ∀ {p : Nat} {a : ℝ}, v[p]? = some a → a ≠ 0 →
      0 < (v.map (fun x => x ^ 2)).sum := by
  induction v with
  | nil => intro p a hp; simp at hp
  | cons b t ih =>
    intro p a hp ha
    cases p with
    | zero =>
      have hba : b = a := by simpa using hp
      subst hba
      have hb2 : 0 < b ^ 2 := (sq_nonneg b).lt_of_ne (fun h0 => ha (by
        have := h0.symm
        rwa [sq_eq_zero_iff] at this))
      calc (0 : ℝ) < b ^ 2 + 0 := by linarith
        _ ≤ b ^ 2 + (t.map (fun x => x ^ 2)).sum := by
              have := sum_sq_nonneg t; linarith
        _ = ((b :: t).map (fun x => x ^ 2)).sum := by simp
    | succ q =>
      have hq : t[q]? = some a := by simpa using hp
      have ht := ih hq ha
      have hb := sq_nonneg b
      calc (0 : ℝ) < (t.map (fun x => x ^ 2)).sum := ht
        _ ≤ b ^ 2 + (t.map (fun x => x ^ 2)).sum := by linarith
        _ = ((b :: t).map (fun x => x ^ 2)).sum := by simp

theorem vecNorm_normalized {v : List ℝ}
    (h : 0 < (v.map (fun x => x ^ 2)).sum) :
    vecNorm (v.map (fun x => x / vecNorm v)) = 1 := by
  set n := vecNorm v with hdef
  have hS : (0 : ℝ) ≤ (v.map (fun x => x ^ 2)).sum := le_of_lt h
  have hn : n ^ 2 = (v.map (fun x => x ^ 2)).sum := by
    rw [hdef]
    exact Real.sq_sqrt hS
  have hmap : (v.map (fun x => x / n)).map (fun x => x ^ 2) =
      v.map (fun x => x ^ 2 * (n ^ 2)⁻¹) := by
    rw [List.map_map]
    apply List.map_congr_left
    intro x _
    simp only [Function.comp]
    rw [div_eq_mul_inv, mul_pow, inv_pow]
  have hsum : (v.map (fun x => x ^ 2 * (n ^ 2)⁻¹)).sum =
      (v.map (fun x => x ^ 2)).sum * (n ^ 2)⁻¹ :=
    List.sum_map_mul_right v (fun x => x ^ 2) _
  unfold vecNorm
  rw [hmap, hsum, hn, mul_inv_cancel₀ (ne_of_gt h), Real.sqrt_one]

theorem vecNorm_zero_vec : vecNorm (List.replicate 384 (0 : ℝ)) = 0 := by
  unfold vecNorm
  rw [List.map_replicate]
  norm_num

theorem wordFreq_snd_pos {text : String} {wf : String × Nat}
    (h : wf ∈ wordFreq text) : 0 < wf.2 := by
  unfold wordFreq at h
  obtain ⟨w, hw, rfl⟩ := List.mem_map.1 h
  have hmem := mem_dedupGo hw
  exact List.count_pos_iff.2 hmem

theorem wordFreq_eq_nil {text : String}
    (h : (pySplitWs (pyLower text.data)).all (fun w => w.length ≤ 2) = true) :
    wordFreq text = [] := by
  unfold wordFreq
  have : (pySplitWs (pyLower text.data)).filter (fun w => 2 < w.length) = [] := by
    rw [List.filter_eq_nil_iff]
    intro w hw
    have := List.all_eq_true.1 h w hw
    simp only [decide_eq_true_eq] at this ⊢
    omega
  rw [this]
  rfl

theorem wordFreq_ne_nil {text : String}
    (h : (pySplitWs (pyLower text.data)).all (fun w => w.length ≤ 2) = false) :
    wordFreq text ≠ [] := by
  rw [List.all_eq_false] at h
  obtain ⟨w, hw, hlen⟩ := h
  have h2 : 2 < w.length := by
    simp only [decide_eq_true_eq] at hlen
    omega
  have hwf : w ∈ (pySplitWs (pyLower text.data)).filter (fun w => decide (2 < w.length)) := by
    rw [List.mem_filter]
    exact ⟨hw, by simpa using h2⟩
  unfold wordFreq
  obtain ⟨a, t, hat⟩ := List.exists_cons_of_ne_nil (List.ne_nil_of_mem hwf)
  rw [hat]
  simp [dedupGo]

theorem simpleEmbedOne_zero {hash : String → Nat} {text : String}
    (h : (pySplitWs (pyLower text.data)).all (fun w => w.length ≤ 2) = true) :
    simpleEmbedOne hash text = List.replicate 384 0 := by
  have hwf := wordFreq_eq_nil h
  have hraw : rawVec hash text = List.replicate 384 0 := by
    unfold rawVec
    rw [hwf]
    rfl
  simp only [simpleEmbedOne, hraw, vecNorm_zero_vec]
  simp

theorem simpleEmbedOne_norm_one {hash : String → Nat} {text : String}
    (h : (pySplitWs (pyLower text.data)).all (fun w => w.length ≤ 2) = false) :
    vecNorm (simpleEmbedOne hash text) = 1 := by
  obtain (hnil | ⟨l, x, hlx⟩) := (wordFreq text).eq_nil_or_concat
  · exact absurd hnil (wordFreq_ne_nil h)
  have hraw : rawVec hash text =
      (l.foldl (fun v wf => v.set (hash wf.1 % 384) (wf.2 : ℝ))
        (List.replicate 384 0)).set (hash x.1 % 384) (x.2 : ℝ) := by
    unfold rawVec
    rw [hlx, List.concat_eq_append, List.foldl_append]
    rfl
  have hplen : hash x.1 % 384 <
      (l.foldl (fun v wf => v.set (hash wf.1 % 384) (wf.2 : ℝ))
        (List.replicate 384 0)).length := by
    rw [foldl_set_length (fun wf => hash wf.1 % 384), List.length_replicate]
    exact Nat.mod_lt _ (by norm_num)
  have hpa : (rawVec hash text)[hash x.1 % 384]? = some (x.2 : ℝ) := by
    rw [hraw]
    exact List.getElem?_set_self hplen
  have hxmem : x ∈ wordFreq text := by
    rw [hlx, List.concat_eq_append]
    exact List.mem_append.2 (Or.inr (List.mem_cons.2 (Or.inl rfl)))
  have hxpos : (0 : ℝ) < (x.2 : ℝ) := by
    exact_mod_cast wordFreq_snd_pos hxmem
  have hpos := sum_sq_pos hpa (ne_of_gt hxpos)
  have hn : 0 < vecNorm (rawVec hash text) := Real.sqrt_pos.2 hpos
  simp only [simpleEmbedOne, if_pos hn]
  exact vecNorm_normalized hpos

/-! ## Claim C10 -/

/-- **C10**. For every list of input texts (and every string-hash
function), `create_simple_embeddings` returns exactly one vector per
input text — as many vectors as texts, the `i`-th being the embedding of
the `i`-th text — every returned vector has dimension exactly 384, and
each text's vector is the zero vector exactly in case the text contains
no word longer than 2 characters, and otherwise has Euclidean norm 1. -/
theorem C10_local_embeddings (hash : String → Nat) (texts : List String) :
    (create_simple_embeddings hash texts).length = texts.length ∧
    (∀ (i : Nat) (text : String), texts[i]? = some text →
      (create_simple_embeddings hash texts)[i]? = some (simpleEmbedOne hash text)) ∧
    (∀ v ∈ create_simple_embeddings hash texts, v.length = 384) ∧
    (∀ text ∈ texts,
      ((pySplitWs (pyLower text.data)).all (fun w => w.length ≤ 2) = true →
        simpleEmbedOne hash text = List.replicate 384 0) ∧
      ((pySplitWs (pyLower text.data)).all (fun w => w.length ≤ 2) = false →
        vecNorm (simpleEmbedOne hash text) = 1)) := by
  refine ⟨List.length_map _ _, ?_, ?_, ?_⟩
  · intro i text hi
    rw [create_simple_embeddings, List.getElem?_map, hi]
    rfl
  · intro v hv
    obtain ⟨t, _, rfl⟩ := List.mem_map.1 hv
    exact simpleEmbedOne_length hash t
  · intro text _
    exact ⟨fun h => simpleEmbedOne_zero h, fun h => simpleEmbedOne_norm_one h⟩

/-- **C10** (witness). The theorem applied to the concrete texts
`["hello world", "a"]` with a trivial hash: two vectors come back,
`"a"` (no word longer than 2 characters) embeds to the zero vector, and
`"hello world"` embeds to a unit vector. -/
theorem C10_witness :
    (create_simple_embeddings hash0 ["hello world", "a"]).length = 2 ∧
    simpleEmbedOne hash0 "a" = List.replicate 384 0 ∧
    vecNorm (simpleEmbedOne hash0 "hello world") = 1 := by
  have h := C10_local_embeddings hash0 ["hello world", "a"]
  refine ⟨h.1, ?_, ?_⟩
  · exact (h.2.2.2 "a" (by simp)).1 (by decide)
  · exact (h.2.2.2 "hello world" (by simp)).2 (by decide)

/-! ## Claim C2 -/

/-- **C2**. On the end-to-end grace-period scenario — document text
`"Grace Period: A grace period of thirty days is allowed."`, question
`"What is the grace period for premium payment?"` — the third grace
pattern (`grace period.*?thirty`) does match the context, but that
pattern has no capture group, so the code's
`match.group(1) if match.group(1) else 'thirty'` raises `IndexError`;
the blanket handler then returns the generic cannot-find answer, which
does not contain `"thirty days"`.  The same answer surfaces from
`generate_comprehensive_answer`. -/
theorem C2_grace_period_bug :
    twoLit "grace period".data "thirty".data
      (pyLower (String.intercalate " " [graceDoc]).data) = true ∧
    generate_local_response graceQuestion [graceDoc] = cannotFindMsg ∧
    containsSub (generate_local_response graceQuestion [graceDoc]).data
      "thirty days".data = false ∧
    (generate_comprehensive_answer md5id [] graceQuestion
      [CtxItem.flat ⟨graceDoc, some "d1"⟩]).1.answer = cannotFindMsg := by
  refine ⟨by decide, by decide, by decide, by decide⟩

/-! ## Claim C7 -/

/-- **C7**. For every question, cache state and digest function, if the
retrieval-result list is empty or the concatenation of its chunk texts
is blank, `generate_comprehensive_answer` returns the fixed cannot-find
answer with confidence 0.0 and empty citations, leaves the cache
untouched, and performs no generation call. -/
theorem C7_no_context (md5 : String → String) (cache : List (String × String))
    (question : String) (items : List CtxItem)
    (h : items.isEmpty = true ∨ pyStrip (String.join (items.map itemText)) = "") :
    (generate_comprehensive_answer md5 cache question items).1.answer = cannotFindMsg ∧
    (generate_comprehensive_answer md5 cache question items).1.confidence_score = 0 ∧
    (generate_comprehensive_answer md5 cache question items).1.citations = [] ∧
    (generate_comprehensive_answer md5 cache question items).2.1 = cache ∧
    (generate_comprehensive_answer md5 cache question items).2.2 = false := by
  unfold generate_comprehensive_answer
  by_cases he : items.isEmpty
  · simp [he]
  · rcases h with h | h
    · exact absurd h he
    · rw [Bool.not_eq_true] at he
      simp [he, h]

/-- **C7** (witness). The theorem applied to a one-element list whose
chunk text is empty (so the concatenated context is blank). -/
theorem C7_witness :
    (generate_comprehensive_answer md5id [] "q" [CtxItem.flat ⟨"", none⟩]).1.answer
      = cannotFindMsg ∧
    (generate_comprehensive_answer md5id [] "q"
      [CtxItem.flat ⟨"", none⟩]).1.confidence_score = 0 ∧
    (generate_comprehensive_answer md5id [] "q" [CtxItem.flat ⟨"", none⟩]).1.citations
      = [] ∧
    (generate_comprehensive_answer md5id [] "q" [CtxItem.flat ⟨"", none⟩]).2.1 = [] ∧
    (generate_comprehensive_answer md5id [] "q" [CtxItem.flat ⟨"", none⟩]).2.2
      = false :=
  C7_no_context md5id [] "q" [CtxItem.flat ⟨"", none⟩] (Or.inr (by decide))

/-! ## Claim C8 -/

/-- **C8**. Calling the answer generator twice with an identical
(question, context-chunk list) pair — for any digest function and any
initial cache — returns on the second call the identical cached answer
text (the cache is keyed by the digest of the question and the first
500 characters of the concatenated context), with the fixed confidence
0.8 and empty citations, without invoking generation again and without
changing the cache further. -/
theorem C8_second_call_cached (md5 : String → String)
    (cache : List (String × String)) (question : String) (items : List CtxItem)
    (hne : items.isEmpty = false)
    (hblank : pyStrip (String.join (items.map itemText)) ≠ "") :
    (generate_comprehensive_answer md5
        (generate_comprehensive_answer md5 cache question items).2.1
        question items).1.answer =
      (generate_comprehensive_answer md5 cache question items).1.answer ∧
    (generate_comprehensive_answer md5
        (generate_comprehensive_answer md5 cache question items).2.1
        question items).1.confidence_score = 4/5 ∧
    (generate_comprehensive_answer md5
        (generate_comprehensive_answer md5 cache question items).2.1
        question items).1.citations = [] ∧
    (generate_comprehensive_answer md5
        (generate_comprehensive_answer md5 cache question items).2.1
        question items).2.2 = false ∧
    (generate_comprehensive_answer md5
        (generate_comprehensive_answer md5 cache question items).2.1
        question items).2.1 =
      (generate_comprehensive_answer md5 cache question items).2.1 := by
  cases hl : cache.lookup
      (generate_cache_key md5 question (String.join (items.map itemText))) with
  | some c =>
    have h1 : generate_comprehensive_answer md5 cache question items =
        (⟨c, 4/5, [], "cached"⟩, cache, false) := by
      unfold generate_comprehensive_answer
      simp [hne, hblank, hl]
    rw [h1]
    unfold generate_comprehensive_answer
    simp [hne, hblank, hl]
  | none =>
    have h1 : generate_comprehensive_answer md5 cache question items =
        (⟨generate_local_response question (optimize_context items question),
          calculate_simple_confidence
            (generate_local_response question (optimize_context items question))
            (optimize_context items question) question,
          extract_basic_citations items, "local_intelligent"⟩,
         (generate_cache_key md5 question (String.join (items.map itemText)),
          generate_local_response question (optimize_context items question)) :: cache,
         true) := by
      unfold generate_comprehensive_answer
      simp [hne, hblank, hl]
    rw [h1]
    unfold generate_comprehensive_answer
    simp [hne, hblank, List.lookup]

/-- **C8** (witness). The theorem applied to a concrete non-empty
context-chunk list with the identity digest and an empty initial
cache. -/
theorem C8_witness :
    (generate_comprehensive_answer md5id
        (generate_comprehensive_answer md5id [] "q" c8items).2.1
        "q" c8items).1.answer =
      (generate_comprehensive_answer md5id [] "q" c8items).1.answer ∧
    (generate_comprehensive_answer md5id
        (generate_comprehensive_answer md5id [] "q" c8items).2.1
        "q" c8items).1.confidence_score = 4/5 ∧
    (generate_comprehensive_answer md5id
        (generate_comprehensive_answer md5id [] "q" c8items).2.1
        "q" c8items).1.citations = [] ∧
    (generate_comprehensive_answer md5id
        (generate_comprehensive_answer md5id [] "q" c8items).2.1
        "q" c8items).2.2 = false ∧
    (generate_comprehensive_answer md5id
        (generate_comprehensive_answer md5id [] "q" c8items).2.1
        "q" c8items).2.1 =
      (generate_comprehensive_answer md5id [] "q" c8items).2.1 :=
  C8_second_call_cached md5id [] "q" c8items (by decide) (by decide)

/-! ## Claim C9 -/

/-- **C9** (counterexample). For a generated (non-cached,
non-empty-context) answer over the wrapped retrieval results the
pipeline actually passes, whose two chunks have `doc_id`s `d1` and
`d2`, the citations are `["unknown"]` — `extract_basic_citations` reads
`doc_id` from the top level of the wrapper dicts, which have none —
refuting the claim that they equal the chunks' distinct `doc_id`s. -/
theorem C9_counterexample :
    (generate_comprehensive_answer md5id [] "What is covered?" c9items).1.citations
      = ["unknown"] ∧
    (generate_comprehensive_answer md5id [] "What is covered?" c9items).1.citations
      ≠ ["d1", "d2"] ∧
    (generate_comprehensive_answer md5id [] "What is covered?" c9items).2.2 = true := by
  refine ⟨by decide, by decide, by decide⟩

theorem dedupGo_congr [DecidableEq α] :
    ∀ (l s1 s2 : List α), (∀ x, x ∈ s1 ↔ x ∈ s2) →
      dedupGo s1 l = dedupGo s2 l := by
  intro l
  induction l with
  | nil => intros; rfl
  | cons a t ih =>
    intro s1 s2 h
    simp only [dedupGo]
    by_cases ha : a ∈ s1
    · rw [if_pos ha, if_pos ((h a).1 ha)]
      exact ih s1 s2 h
    · rw [if_neg ha, if_neg (fun c => ha ((h a).2 c))]
      rw [ih (a :: s1) (a :: s2) (fun x => by simp [h x])]

theorem citLoop_all_dict :
    ∀ (l : List CtxItem) (acc : List String), l.all isDictItem = true →
      citLoop l acc = acc ++ dedupGo acc (l.map topDocId) := by
  intro l
  induction l with
  | nil => intro acc _; simp [citLoop, dedupGo]
  | cons it rest ih =>
    intro acc hall
    rw [List.all_cons, Bool.and_eq_true] at hall
    obtain ⟨hd, ht⟩ := hall
    have hcite : citeDocId it = some (topDocId it) := by
      cases it with
      | wrapped c sc => rfl
      | flat c => rfl
      | other s => simp [isDictItem] at hd
    simp only [citLoop, hcite, List.map_cons, dedupGo]
    by_cases hmem : topDocId it ∈ acc
    · rw [if_pos hmem, if_pos hmem]
      exact ih acc ht
    · rw [if_neg hmem, if_neg hmem]
      rw [ih (acc ++ [topDocId it]) ht]
      rw [dedupGo_congr (rest.map topDocId)
        (acc ++ [topDocId it]) (topDocId it :: acc)
        (fun x => by simp [or_comm])]
      simp

theorem citLoop_non_dict :
    ∀ (l : List CtxItem) (acc : List String), l.all isDictItem = false →
      citLoop l acc = [] := by
  intro l
  induction l with
  | nil => intro acc h; simp at h
  | cons it rest ih =>
    intro acc hall
    cases it with
    | other s => simp [citLoop, citeDocId]
    | wrapped c sc =>
      have ht : rest.all isDictItem = false := by
        simpa [isDictItem] using hall
      simp only [citLoop, citeDocId]
      split_ifs <;> exact ih _ ht
    | flat c =>
      have ht : rest.all isDictItem = false := by
        simpa [isDictItem] using hall
      simp only [citLoop, citeDocId]
      split_ifs <;> exact ih _ ht

/-- **C9** (amended). For every generated (non-cached,
non-empty-context) answer, the citations are the first-seen-order
deduplicated values of the *top-level* `doc_id` keys of the first 3
context items, with `'unknown'` substituted where the key is absent —
in particular every `{'chunk': ...}` retrieval-result wrapper
contributes `'unknown'`, not its inner chunk's `doc_id` — and the
citations are `[]` outright if any of the first 3 items is not a dict
(the `AttributeError` is swallowed). -/
theorem C9_citations_amended (md5 : String → String)
    (cache : List (String × String)) (question : String) (items : List CtxItem)
    (hne : items.isEmpty = false)
    (hblank : pyStrip (String.join (items.map itemText)) ≠ "")
    (hmiss : cache.lookup
      (generate_cache_key md5 question (String.join (items.map itemText))) = none) :
    (generate_comprehensive_answer md5 cache question items).1.citations =
      (if (items.take 3).all isDictItem then
        dedupGo [] ((items.take 3).map topDocId)
      else []) ∧
    (generate_comprehensive_answer md5 cache question items).2.2 = true := by
  have hcit : (generate_comprehensive_answer md5 cache question items).1.citations =
      extract_basic_citations items ∧
      (generate_comprehensive_answer md5 cache question items).2.2 = true := by
    unfold generate_comprehensive_answer
    simp [hne, hblank, hmiss]
  refine ⟨?_, hcit.2⟩
  rw [hcit.1]
  unfold extract_basic_citations
  by_cases hall : (items.take 3).all isDictItem
  · rw [if_pos hall, citLoop_all_dict _ _ hall]
    simp
  · rw [if_neg hall, citLoop_non_dict _ _ (Bool.not_eq_true _ ▸ hall)]

/-- **C9** (witness). The amended theorem applied to the concrete
wrapped retrieval results: both wrappers contribute `'unknown'`, so
after deduplication the citations are `["unknown"]`. -/
theorem C9_witness :
    (generate_comprehensive_answer md5id [] "What is the coverage?" c9items).1.citations =
      (if (c9items.take 3).all isDictItem then
        dedupGo [] ((c9items.take 3).map topDocId)
      else []) ∧
    (generate_comprehensive_answer md5id [] "What is the coverage?" c9items).2.2
      = true :=
  C9_citations_amended md5id [] "What is the coverage?" c9items
    (by decide) (by decide) rfl
